import Mathlib

/-!
Verification of the BME UDF binary decoding engine (bme_converter repository).

The binary payload of a `.udf` file is modelled as `List Nat` (each element a
byte value `0..255`).  Strings are Lean `String`s; the Python string helpers
used by the source (`str.strip`, `str.split`) are re-implemented character by
character so that every definition is executable.

Python-semantics notes used throughout, recorded once here:
* `bytes[i:j]` is `(l.drop i).take (j - i)` and silently truncates at the end.
* `struct.unpack` is little-endian (`'<'` prefix in every call site) and
  raises `struct.error` when the buffer length differs from the format size.
* IEEE-754 `float` values (`'f'` format, and the `'<f'` field decodes) are kept
  as their 32-bit little-endian bit patterns (`PyVal.vfloat32`); no floating
  point arithmetic is performed by the code under verification, only byte
  extraction, so the bit-pattern view is a faithful embedding of the decode.
* `max(set(l), key=l.count)` picks an element of `l` of maximal multiplicity.
  CPython iterates a set in an implementation-defined order, so on a tie the
  chosen element is not specified by the Python language.  The embedding
  (`mostCommon`) enumerates the distinct values in first-occurrence order;
  every theorem below that involves `mostCommon` either holds for an arbitrary
  enumeration order (it only uses "the result is a value of maximal count") or
  is evaluated on inputs whose mode is unique, hence is independent of this
  modelling choice.
-/

set_option maxRecDepth 40000

/-- Python dynamic values produced by the record decoders: integers
(unsigned and signed decodes), 32-bit floats kept as bit patterns,
hex-string fallbacks, `None`, and tuples (compound fields). -/
inductive PyVal where
  | vint : Int → PyVal
  | vfloat32 : Nat → PyVal
  | vhex : String → PyVal
  | vnone : PyVal
  | vtuple : List PyVal → PyVal
deriving Repr

/-- The Python exceptions that the embedded code can raise. -/
inductive PyErr where
  | valueError : PyErr
  | typeError : PyErr
  | structError : PyErr
deriving Repr, DecidableEq

/-- Little-endian value of a byte list: `struct.unpack` semantics for the
`B/H/I/Q` formats once restricted to the exact-width slice. -/
def leNat : List Nat → Nat
  | [] => 0
  | b :: rest => b + 256 * leNat rest

/-- Two's-complement reinterpretation: Python's signed formats `b/h/i`
map a width-`m` unsigned value `n` to `n` or `n - m`. -/
def toSigned (n m : Nat) : Int :=
  if 2 * n < m then (n : Int) else (n : Int) - (m : Int)

/-- `b'\x00\xff'` test at offset `i` of the payload, i.e.
`binary[i:i+2] == b'\x00\xff'`.  Only evaluated at `i < len - 1`, where both
bytes exist; the defaults are chosen to be non-marker bytes. -/
def isMarkerAt (binary : List Nat) (i : Nat) : Bool :=
  binary.getD i 1 = 0 && binary.getD (i + 1) 1 = 255

/-- Marker scan of `bme_udf_converter.parse_udf_file` (lines 68-70): every
offset `i` in `range(min(1000, len(binary_data) - 1))` with
`binary_data[i:i+2] == b'\x00\xff'`, uncapped. -/
def scanPositionsAll (binary : List Nat) : List Nat :=
  (List.range (min 1000 (binary.length - 1))).filter (isMarkerAt binary)

/-- Marker scan of `BMEUDFParser._calculate_record_size` (lines 188-194) and
`UDFToRawDataConverter._detect_record_size` (lines 237-244): same window as
`scanPositionsAll`, but the loop breaks once 10 positions are collected. -/
def scanPositions (binary : List Nat) : List Nat :=
  (scanPositionsAll binary).take 10

/-- `[positions[i+1] - positions[i] for i in range(len(positions)-1)]`. -/
def deltasOf : List Nat → List Nat
  | a :: b :: rest => (b - a) :: deltasOf (b :: rest)
  | _ => []

/-- Distinct values of `l` in first-occurrence order: the enumeration chosen
for `set(l)` (see the header note on set iteration order). -/
def firstOccurrences (l : List Nat) : List Nat :=
  l.foldl (fun acc x => if x ∈ acc then acc else acc ++ [x]) []

/-- `max(set(l), key=l.count)`: Python's `max` keeps the earlier element
unless a strictly larger key appears.  Returns `0` on the empty list
(Python would raise there; every call site guards non-emptiness). -/
def mostCommon (l : List Nat) : Nat :=
  match firstOccurrences l with
  | [] => 0
  | x :: xs => xs.foldl (fun best y => if l.count best < l.count y then y else best) x

/-- `BMEUDFParser._calculate_record_size` (bme_udf_parser.py lines 172-205).
Returns the pair `(first_record_size, subsequent_record_size)`:
payloads shorter than 100 bytes (or empty) get the `(61, 61)` guess; with at
least two scanned marker positions the subsequent size is the most common
consecutive delta and the first size is `positions[0] + subsequent` when
`positions[0] < subsequent`, else `subsequent`; otherwise `(28, 61)`. -/
def calculateRecordSize (binary : List Nat) : Nat × Nat :=
  if binary.length < 100 then (61, 61)
  else
    match scanPositions binary with
    | p0 :: p1 :: rest =>
      match deltasOf (p0 :: p1 :: rest) with
      | [] => (28, 61)
      | d :: ds =>
        let s := mostCommon (d :: ds)
        (if p0 < s then p0 + s else s, s)
    | _ => (28, 61)

/-- `UDFToRawDataConverter._detect_record_size` (bme_udf_to_rawdata.py lines
230-256).  Returns `(header_size, record_size)`: with at least two scanned
positions, `header_size` is the first delta and `record_size` the most common
of the remaining deltas (`range(1, len(positions)-1)` skips the first);
if that remainder is empty, or fewer than two positions exist, `(28, 61)`. -/
def detectRecordSize (binary : List Nat) : Nat × Nat :=
  match scanPositions binary with
  | p0 :: p1 :: rest =>
    match deltasOf (p1 :: rest) with
    | [] => (28, 61)
    | d :: ds => (p1 - p0, mostCommon (d :: ds))
  | _ => (28, 61)

/-- Framing portion of `bme_udf_converter.parse_udf_file` (lines 67-84):
fewer than two (uncapped) marker positions raise
`ValueError("Could not detect record structure")`; otherwise the record size
is the most common delta and the first-record size is derived as in the
descriptor parser. -/
def converterDetectFraming (binary : List Nat) : Except PyErr (Nat × Nat) :=
  let positions := scanPositionsAll binary
  if positions.length < 2 then .error .valueError
  else
    let s := mostCommon (deltasOf positions)
    .ok (if positions.headD 0 < s then positions.headD 0 + s else s, s)

/-- Python `\s` / `str.strip` whitespace (ASCII subset actually occurring in
metadata text): space, tab, newline, carriage return, vertical tab, form feed. -/
def isPySpace (c : Char) : Bool :=
  c = ' ' || c = '\t' || c = '\n' || c = '\r' || c.toNat = 11 || c.toNat = 12

/-- `str.strip()` on a character list. -/
def pyStripList (l : List Char) : List Char :=
  ((l.dropWhile isPySpace).reverse.dropWhile isPySpace).reverse

/-- `str.strip()`. -/
def pyStrip (s : String) : String :=
  String.mk (pyStripList s.data)

/-- Python `str.split(sep)` for a one-character separator:
`"" → [""]`, `":" → ["", ""]`, `"a:b" → ["a", "b"]`. -/
def splitOnChar (sep : Char) : List Char → List (List Char)
  | [] => [[]]
  | c :: rest =>
    match splitOnChar sep rest with
    | [] => [[]]
    | h :: t => if c = sep then [] :: h :: t else (c :: h) :: t

/-- Re-join colon-separated segments: the text matched by the final `(.+)$`
group of the eight-field line pattern (it may itself contain colons). -/
def joinColon : List (List Char) → List Char
  | [] => []
  | [x] => x
  | x :: xs => x ++ ':' :: joinColon xs

/-- Nonempty all-digit segment: what `(\d+)` immediately followed by `:`
can match within one colon-free segment. -/
def isDigitSeg (l : List Char) : Bool :=
  !l.isEmpty && l.all Char.isDigit

/-- Segment of shape `\s*(\d+)`: optional whitespace, then at least one
digit, nothing else before the next colon. -/
def isWsDigitSeg (l : List Char) : Bool :=
  isDigitSeg (l.dropWhile isPySpace)

/-- `int()` of a digit string (the regex groups feeding `int(...)` are pure
digit runs). -/
def natOfDigits (l : List Char) : Nat :=
  l.foldl (fun n c => 10 * n + (c.toNat - 48)) 0

/-- One metadata field descriptor of `BMEUDFParser._parse_metadata`, the
eight-token dict `{id, name, size, type, flags, val1, val2, status}`. -/
structure UdfField where
  id : Nat
  name : String
  size : Nat
  type : String
  flags : String
  val1 : String
  val2 : String
  status : String
deriving Repr, DecidableEq

/-- One metadata field descriptor of
`UDFToRawDataConverter._parse_metadata`: `{id, name, size, type}`. -/
structure RawField where
  id : Nat
  name : String
  size : Nat
  type : String
deriving Repr, DecidableEq

/-- Match of `bme_udf_parser.py`'s field-line regex (lines 86-88)
`^(\d+):\s*([^:]+):\s*(\d+):\s*([^:]+):\s*([^:]+):\s*([^:]+):\s*([^:]+):\s*(.+)$`
compiled segment-wise: the seven `[^:]+`/`\d+` groups each occupy exactly one
colon-free segment, the final `(.+)` takes everything after the seventh colon
(possibly containing colons, at least one character, whitespace allowed via
backtracking into `\s*`).  Captured groups are returned already `.strip()`ed,
which coincides with stripping the whole segment. -/
def matchFieldLine8 (line : List Char) : Option UdfField :=
  match splitOnChar ':' line with
  | p0 :: p1 :: p2 :: p3 :: p4 :: p5 :: p6 :: p7 :: rest =>
    let statusRaw := joinColon (p7 :: rest)
    if isDigitSeg p0 && !p1.isEmpty && isWsDigitSeg p2 && !p3.isEmpty &&
       !p4.isEmpty && !p5.isEmpty && !p6.isEmpty && !statusRaw.isEmpty then
      some { id := natOfDigits p0
             name := String.mk (pyStripList p1)
             size := natOfDigits (p2.dropWhile isPySpace)
             type := String.mk (pyStripList p3)
             flags := String.mk (pyStripList p4)
             val1 := String.mk (pyStripList p5)
             val2 := String.mk (pyStripList p6)
             status := String.mk (pyStripList statusRaw) }
    else none
  | _ => none

/-- Match of `bme_udf_to_rawdata.py`'s field-line regex (line 185)
`^(\d+):\s*([^:]+):\s*(\d+):\s*([^:]+):` under `re.match` (prefix match):
four captured segments, each necessarily followed by a literal colon — so a
line whose fourth token is not followed by another `:` does NOT match. -/
def matchFieldLine4 (line : List Char) : Option RawField :=
  match splitOnChar ':' line with
  | p0 :: p1 :: p2 :: p3 :: _ :: _ =>
    if isDigitSeg p0 && !p1.isEmpty && isWsDigitSeg p2 && !p3.isEmpty then
      some { id := natOfDigits p0
             name := String.mk (pyStripList p1)
             size := natOfDigits (p2.dropWhile isPySpace)
             type := String.mk (pyStripList p3) }
    else none
  | _ => none

/-- Field-line loop of `BMEUDFParser._parse_metadata` (lines 90-115): each
line is stripped, empty lines are skipped with `continue`, non-matching lines
are silently skipped, matching lines append one descriptor. -/
def parserFieldLines (lines : List (List Char)) : List UdfField :=
  lines.filterMap fun l =>
    let l' := pyStripList l
    if l'.isEmpty then none else matchFieldLine8 l'

/-- `BMEUDFParser._parse_metadata` (lines 69-115): strip the metadata text,
split on newlines, take the first line (stripped) as the version, feed the
remaining lines to the field-line loop. -/
def parserParseMetadata (metadata : String) : String × List UdfField :=
  let lines := splitOnChar '\n' (pyStripList metadata.data)
  (String.mk (pyStripList (lines.headD [])), parserFieldLines (lines.drop 1))

/-- Field-line loop of `UDFToRawDataConverter._parse_metadata`
(lines 187-200): unmatched lines are silently skipped. -/
def rawFieldsFrom (lines : List (List Char)) : List RawField :=
  lines.filterMap matchFieldLine4

/-- `UDFToRawDataConverter._parse_metadata` (lines 176-202): lines are
stripped and empty ones discarded up front; the first remaining line is the
version (`"unknown"` when none remain). -/
def rawdataParseMetadata (metadata : String) : String × List RawField :=
  let lines := ((splitOnChar '\n' metadata.data).map pyStripList).filter (fun l => !l.isEmpty)
  match lines with
  | [] => ("unknown", [])
  | v :: rest => (String.mk v, rawFieldsFrom rest)

/-- `BMEUDFParser.TYPE_MAP` (lines 17-25): recognized type tokens with their
`struct` format character and byte size. -/
def typeMap : String → Option (String × Nat)
  | "u8" => some ("B", 1)
  | "s8" => some ("b", 1)
  | "u16" => some ("H", 2)
  | "s16" => some ("h", 2)
  | "u32" => some ("I", 4)
  | "s32" => some ("i", 4)
  | "f" => some ("f", 4)
  | _ => none

/-- `typeMap` on a raw character-list token. -/
def typeMapL (t : List Char) : Option (String × Nat) :=
  typeMap (String.mk t)

/-- Lowercase hexadecimal digit (the table `bytes.hex()` draws from). -/
def hexDigitChar (n : Nat) : Char :=
  match n with
  | 0 => '0' | 1 => '1' | 2 => '2' | 3 => '3' | 4 => '4'
  | 5 => '5' | 6 => '6' | 7 => '7' | 8 => '8' | 9 => '9'
  | 10 => 'a' | 11 => 'b' | 12 => 'c' | 13 => 'd' | 14 => 'e' | 15 => 'f'
  | _ => '0'

/-- `bytes.hex()` of one byte: two lowercase hex digits. -/
def hexOfByte (b : Nat) : List Char :=
  [hexDigitChar (b / 16), hexDigitChar (b % 16)]

/-- `bytes.hex()`: lowercase hex string, two characters per byte. -/
def hexOfBytes (bs : List Nat) : String :=
  String.mk (bs.foldr (fun b acc => hexOfByte b ++ acc) [])

/-- `struct.unpack('<' + fmt, bytes)[0]` for the format characters of
`TYPE_MAP`: little-endian decode, raising `struct.error` when the buffer
length differs from the format's size.  `'f'` keeps the IEEE-754 bit
pattern (see the header note). -/
def structUnpack (fmt : String) (bytes : List Nat) : Except PyErr PyVal :=
  match fmt with
  | "B" => if bytes.length = 1 then .ok (.vint (leNat bytes)) else .error .structError
  | "b" => if bytes.length = 1 then .ok (.vint (toSigned (leNat bytes) 256)) else .error .structError
  | "H" => if bytes.length = 2 then .ok (.vint (leNat bytes)) else .error .structError
  | "h" => if bytes.length = 2 then .ok (.vint (toSigned (leNat bytes) 65536)) else .error .structError
  | "I" => if bytes.length = 4 then .ok (.vint (leNat bytes)) else .error .structError
  | "i" => if bytes.length = 4 then .ok (.vint (toSigned (leNat bytes) 4294967296)) else .error .structError
  | "f" => if bytes.length = 4 then .ok (.vfloat32 (leNat bytes)) else .error .structError
  | _ => .error .structError

/-- `values[0] if values else None`, or `tuple(values)` when more than one:
the return normalization at the end of the compound branch of
`BMEUDFParser._parse_field_value` (line 289). -/
def pyCollapse : List PyVal → PyVal
  | [] => .vnone
  | [v] => v
  | vs => .vtuple vs

/-- Compound-type loop of `BMEUDFParser._parse_field_value` (lines 274-289):
recognized components are decoded at increasing sub-offsets while they fit,
a component that does not fit appends `None` without advancing, and an
unrecognized component appends the hex of the remaining bytes and breaks. -/
def compoundDecode (data : List Nat) : List (List Char) → Nat → List PyVal → Except PyErr PyVal
  | [], _, values => .ok (pyCollapse values)
  | t :: rest, offset, values =>
    match typeMapL t with
    | some (fmt, tsize) =>
      if offset + tsize ≤ data.length then
        match structUnpack fmt ((data.drop offset).take tsize) with
        | .ok v => compoundDecode data rest (offset + tsize) (values ++ [v])
        | .error e => .error e
      else compoundDecode data rest offset (values ++ [.vnone])
    | none => .ok (pyCollapse (values ++ [.vhex (hexOfBytes (data.drop offset))]))

/-- `BMEUDFParser._parse_field_value` (lines 248-289): split the type spec on
commas and strip each token; a single recognized token is a little-endian
`struct.unpack` of the whole field buffer, a single unrecognized token yields
the buffer's lowercase hex string, and multiple tokens enter the compound
loop.  (`size` is an argument of the Python method but is not read on the
single-token paths.) -/
def parseFieldValue (data : List Nat) (typeSpec : String) (size : Nat) : Except PyErr PyVal :=
  let types := (splitOnChar ',' typeSpec.data).map pyStripList
  match types with
  | [t] =>
    match typeMapL t with
    | some (fmt, _) => structUnpack fmt data
    | none => .ok (.vhex (hexOfBytes data))
  | ts => compoundDecode data ts 0 []

/-- Record key `f"{field_id}_{field_name}"`. -/
def fieldKey (f : UdfField) : String :=
  toString f.id ++ "_" ++ f.name

/-- Per-field step of `BMEUDFParser._parse_record` (lines 221-244): slice
`size` bytes at the cursor; a short slice stores `None`, otherwise the typed
decode is attempted and any exception is replaced by the slice's hex string.
The cursor advance (`offset += field_size`) happens in every branch and is
carried by `parseRecordEntries`. -/
def fieldEntry (data : List Nat) (offset : Nat) (f : UdfField) : String × Option PyVal :=
  let fieldData := (data.drop offset).take f.size
  if fieldData.length < f.size then (fieldKey f, none)
  else
    match parseFieldValue fieldData f.type f.size with
    | .ok v => (fieldKey f, some v)
    | .error _ => (fieldKey f, some (.vhex (hexOfBytes fieldData)))

/-- Field loop of `BMEUDFParser._parse_record`: walk the descriptors in
order, the cursor advancing by each field's declared size. -/
def parseRecordEntries (data : List Nat) : List UdfField → Nat → List (String × Option PyVal)
  | [], _ => []
  | f :: rest, offset => fieldEntry data offset f :: parseRecordEntries data rest (offset + f.size)

/-- `BMEUDFParser._parse_record` (lines 207-246): the `_record_num` entry
followed by one entry per field descriptor, cursor starting at 0. -/
def parseRecord (data : List Nat) (recordNum : Nat) (fields : List UdfField) :
    List (String × Option PyVal) :=
  ("_record_num", some (.vint recordNum)) :: parseRecordEntries data fields 0

/-- Declared-layout offset of field `i`: the sum of the declared sizes of the
fields before it. -/
def prefixSize (fields : List UdfField) (i : Nat) : Nat :=
  ((fields.take i).map (fun f => f.size)).sum

/-- Python `tuple == int` comparison: always `False`, never an error.
(`extract_records` compares `_calculate_record_size()`'s pair with `0`.) -/
def pyEqPairInt (_ : Nat × Nat) (_ : Nat) : Bool := false

/-- `BMEUDFParser.extract_records` (lines 142-170), called after a successful
`parse()` (so `binary_data` is a bytes object): `record_size` is bound to the
PAIR returned by `_calculate_record_size`; `record_size == 0` is a Python
tuple-vs-int comparison (`False`, no exception), and the first evaluation of
the loop condition `offset + record_size <= len(...)` adds `int` to `tuple`,
raising `TypeError` before any record is decoded. -/
def parserExtractRecords (binary : List Nat) : Except PyErr (List (List (String × Option PyVal))) :=
  let recordSizePair := calculateRecordSize binary
  if pyEqPairInt recordSizePair 0 then .error .valueError
  else .error .typeError

/-- `UDFToRawDataConverter._parse_record_61_byte` (lines 258-345): `None` for
a window shorter than 61 bytes, otherwise the 13 canonical values decoded at
the hard offsets (all little-endian; floats kept as bit patterns). -/
def parseRecord61 (data : List Nat) : Option (List PyVal) :=
  if data.length < 61 then none
  else
    let sensorIndex : PyVal := .vint (data.getD 60 0)
    let sensorId : PyVal := .vint (leNat ((data.drop 45).take 4))
    let timeMs : PyVal := .vint ((leNat ((data.drop 2).take 8) : Nat) / 1000000)
    let realTimeClock : PyVal := .vint 0
    let temperature : PyVal := .vfloat32 (leNat ((data.drop 33).take 4))
    let pressure : PyVal := .vfloat32 (leNat ((data.drop 27).take 4))
    let humidity : PyVal := .vfloat32 (leNat ((data.drop 21).take 4))
    let gasResistance : PyVal := .vfloat32 (leNat ((data.drop 15).take 4))
    let heaterStep : PyVal := .vint (data.getD 12 0)
    let scanningEnabled : PyVal := .vint 1
    let scanningCycle : PyVal := .vint (data.getD 39 0)
    let labelTag : PyVal := .vint (leNat ((data.drop 51).take 4))
    let errorCode : PyVal := .vint (toSigned (leNat ((data.drop 53).take 1)) 256)
    some [sensorIndex, sensorId, timeMs, realTimeClock, temperature, pressure,
          humidity, gasResistance, heaterStep, scanningEnabled, scanningCycle,
          labelTag, errorCode]

/-- Record loop of `UDFToRawDataConverter.extract_records` (lines 217-228)
with the framing made explicit: starting at `headerSize` and stepping by
`recordSize`, each full window is decoded and non-`None` results collected.
The `while offset + record_size <= len(...)` loop runs exactly
`(len - headerSize) / recordSize` times (its Python counterpart diverges when
`record_size = 0`, which the detector never produces: its results are either
the constant 61 or a positive inter-marker delta). -/
def extractRecordsGiven (binary : List Nat) (headerSize recordSize : Nat) : List (List PyVal) :=
  (List.range ((binary.length - headerSize) / recordSize)).filterMap
    fun i => parseRecord61 ((binary.drop (headerSize + i * recordSize)).take recordSize)

/-- `UDFToRawDataConverter.extract_records` (lines 204-228): detect the
framing, then run the record loop. -/
def udfExtractRecords (binary : List Nat) : List (List PyVal) :=
  extractRecordsGiven binary (detectRecordSize binary).1 (detectRecordSize binary).2

/-- Synthetic payload: byte 0 at each position of `ps`, byte 255 right after
it, filler byte 1 elsewhere (marker positions are chosen at least two apart,
so the two rules never collide). -/
def payloadWithMarkers (ps : List Nat) (len : Nat) : List Nat :=
  (List.range len).map fun i =>
    if ps.contains i then 0
    else if i ≠ 0 ∧ ps.contains (i - 1) then 255
    else 1

/-- 213-byte payload with markers at 0, 61, 122, 150, 211: consecutive
inter-marker deltas `[61, 61, 28, 61]`. -/
def payDeltas61 : List Nat := payloadWithMarkers [0, 61, 122, 150, 211] 213

/-- 62-byte payload with markers at 0, 10, 20, 40, 60: consecutive deltas
`[10, 10, 20, 20]` (a 10-vs-20 frequency tie over all deltas, but `20` is the
unique mode once the first delta is dropped). -/
def payTie : List Nat := payloadWithMarkers [0, 10, 20, 40, 60] 62

/-- 35-byte payload with markers at 0, 10, 20, 30: the canonical-schema
detector infers `header_size = 10`, `record_size = 10`. -/
def paySmallRecords : List Nat := payloadWithMarkers [0, 10, 20, 30] 35

/-- 152-byte payload with markers at 0, 61, 122: framing `(61, 61)`, and
`152 - 61 = 1 * 61 + 30` leaves one full record plus a 30-byte tail. -/
def payOneRecord : List Nat := payloadWithMarkers [0, 61, 122] 152

/-- 92-byte payload with markers at 30, 60, 75, 90: the canonical-schema
detector infers `header_size = 30`, `record_size = 15`, and the first marker
offset 30 is NOT smaller than the record size. -/
def payLateFirstMarker : List Nat := payloadWithMarkers [30, 60, 75, 90] 92

/-- 99 filler bytes: no marker anywhere, and shorter than 100 bytes. -/
def payShortNoMarker : List Nat := List.replicate 99 1

/-- 120 filler bytes: no marker anywhere, at least 100 bytes long. -/
def payLongNoMarker : List Nat := List.replicate 120 1

/-- 30-byte payload with markers at 0 and 10 only: exactly two marker
occurrences in the scan window. -/
def payTwoMarkers : List Nat := payloadWithMarkers [0, 10] 30

/-- 61-byte window of the fixed-offset scenario: byte 60 is 2, bytes 45-48
are little-endian 7, all other bytes 0. -/
def winScenario : List Nat :=
  (List.range 61).map fun i => if i = 60 then 2 else if i = 45 then 7 else 0

/-- The spec's metadata scenario: a version line and two four-token field
lines. -/
def scenarioMetadata : String :=
  "1.0\n0: Sensor Index: 1: u8\n1: Temperature: 4: f"

/-- An eight-token field line (the richer header variant). -/
def lineEight : List Char :=
  "2: Temperature: 4: f: 0: 0: 0: OK".data

/-- A four-token field line (the simpler variant claimed to be accepted). -/
def lineFour : List Char :=
  "0: Sensor Index: 1: u8".data

/-- Field descriptors for the truncated-field witness: a 4-byte `u32`
followed by a 2-byte `u16`. -/
def fieldU32 : UdfField := ⟨0, "A", 4, "u32", "", "", "", ""⟩

/-- Second descriptor of the truncated-field witness. -/
def fieldU16 : UdfField := ⟨1, "B", 2, "u16", "", "", "", ""⟩

/-- Five-byte buffer: enough for the `u32` field, one byte short for the
`u16` field that the descriptor layout places at offset 4. -/
def shortData : List Nat := [1, 0, 0, 0, 5]

theorem foldl_maxBy_mem (key : Nat → Nat) :
    ∀ (xs : List Nat) (x : Nat),
      xs.foldl (fun best y => if key best < key y then y else best) x ∈ x :: xs := by
  intro xs
  induction xs with
  | nil => intro x; simp
  | cons y ys ih =>
    intro x
    have h := ih (if key x < key y then y else x)
    simp only [List.foldl_cons]
    rcases List.mem_cons.mp h with h1 | h1
    · by_cases hk : key x < key y
      · simp [hk] at h1
        simp [List.foldl_cons, h1, hk]
      · simp [hk] at h1
        simp [List.foldl_cons, h1, hk]
    · simp [List.mem_cons.mpr (Or.inr (List.mem_cons.mpr (Or.inr h1)))]

theorem foldl_maxBy_le (key : Nat → Nat) :
    ∀ (xs : List Nat) (x z : Nat), z ∈ x :: xs →
      key z ≤ key (xs.foldl (fun best y => if key best < key y then y else best) x) := by
  intro xs
  induction xs with
  | nil =>
    intro x z hz
    simp at hz
    simp [hz]
  | cons y ys ih =>
    intro x z hz
    simp only [List.foldl_cons]
    have hstep : key x ≤ key (if key x < key y then y else x) ∧
        key y ≤ key (if key x < key y then y else x) := by
      by_cases hk : key x < key y <;> simp [hk] <;> omega
    rcases List.mem_cons.mp hz with hzx | hz1
    · rw [hzx]
      exact le_trans hstep.1
        (ih (if key x < key y then y else x) _ (List.mem_cons_self _ _))
    · rcases List.mem_cons.mp hz1 with hzy | hz2
      · rw [hzy]
        exact le_trans hstep.2
          (ih (if key x < key y then y else x) _ (List.mem_cons_self _ _))
      · exact ih (if key x < key y then y else x) z (List.mem_cons.mpr (Or.inr hz2))

theorem mem_foldl_dedup (l : List Nat) :
    ∀ (acc : List Nat) (y : Nat),
      y ∈ l.foldl (fun acc x => if x ∈ acc then acc else acc ++ [x]) acc ↔ y ∈ acc ∨ y ∈ l := by
  induction l with
  | nil => intro acc y; simp
  | cons x xs ih =>
    intro acc y
    simp only [List.foldl_cons]
    rw [ih]
    by_cases hx : x ∈ acc
    · simp only [if_pos hx]
      constructor
      · rintro (h | h)
        · exact Or.inl h
        · exact Or.inr (List.mem_cons.mpr (Or.inr h))
      · rintro (h | h)
        · exact Or.inl h
        · rcases List.mem_cons.mp h with rfl | h1
          · exact Or.inl hx
          · exact Or.inr h1
    · simp only [if_neg hx, List.mem_append, List.mem_singleton, List.mem_cons]
      tauto

theorem mem_firstOccurrences (l : List Nat) (y : Nat) :
    y ∈ firstOccurrences l ↔ y ∈ l := by
  unfold firstOccurrences
  rw [mem_foldl_dedup]
  simp

theorem mostCommon_spec (l : List Nat) (hl : l ≠ []) :
    mostCommon l ∈ l ∧ ∀ d ∈ l, l.count d ≤ l.count (mostCommon l) := by
  have hne : firstOccurrences l ≠ [] := by
    rcases l with _ | ⟨a, t⟩
    · exact absurd rfl hl
    · intro hemp
      have : a ∈ firstOccurrences (a :: t) := (mem_firstOccurrences _ _).mpr (by simp)
      rw [hemp] at this
      exact absurd this (List.not_mem_nil a)
  rcases hfo : firstOccurrences l with _ | ⟨x, xs⟩
  · exact absurd hfo hne
  · have hmc : mostCommon l = xs.foldl (fun best y => if l.count best < l.count y then y else best) x := by
      simp only [mostCommon, hfo]
    constructor
    · rw [hmc]
      have := foldl_maxBy_mem (l.count) xs x
      have hx : xs.foldl (fun best y => if l.count best < l.count y then y else best) x ∈ firstOccurrences l := by
        rw [hfo]; exact this
      exact (mem_firstOccurrences _ _).mp hx
    · intro d hd
      rw [hmc]
      have hd' : d ∈ x :: xs := by
        rw [← hfo]; exact (mem_firstOccurrences _ _).mpr hd
      exact foldl_maxBy_le (l.count) xs x d hd'

theorem length_filterMap_of_isSome {α β : Type} (f : α → Option β) :
    ∀ l : List α, (∀ a ∈ l, (f a).isSome) → (l.filterMap f).length = l.length := by
  intro l
  induction l with
  | nil => intro _; simp
  | cons a t ih =>
    intro h
    have ha := h a (List.mem_cons_self _ _)
    rcases hfa : f a with _ | b
    · rw [hfa] at ha; simp at ha
    · simp [List.filterMap_cons, hfa, ih (fun x hx => h x (List.mem_cons.mpr (Or.inr hx)))]

theorem drop_eq_getD_cons :
    ∀ (l : List Nat) (k : Nat), k < l.length → l.drop k = l.getD k 0 :: l.drop (k + 1) := by
  intro l
  induction l with
  | nil => intro k hk; simp at hk
  | cons a t ih =>
    intro k hk
    cases k with
    | zero => simp
    | succ k' =>
      simp only [List.drop_succ_cons, List.getD_cons_succ]
      exact ih k' (by simpa using hk)

theorem take1_eq (l : List Nat) (k : Nat) (h : k + 1 ≤ l.length) :
    (l.drop k).take 1 = [l.getD k 0] := by
  rw [drop_eq_getD_cons l k (by omega)]
  rfl

theorem take4_eq (l : List Nat) (k : Nat) (h : k + 4 ≤ l.length) :
    (l.drop k).take 4 =
      [l.getD k 0, l.getD (k + 1) 0, l.getD (k + 2) 0, l.getD (k + 3) 0] := by
  rw [drop_eq_getD_cons l k (by omega), drop_eq_getD_cons l (k + 1) (by omega),
      drop_eq_getD_cons l (k + 2) (by omega), drop_eq_getD_cons l (k + 3) (by omega)]
  rfl

theorem take8_eq (l : List Nat) (k : Nat) (h : k + 8 ≤ l.length) :
    (l.drop k).take 8 =
      [l.getD k 0, l.getD (k + 1) 0, l.getD (k + 2) 0, l.getD (k + 3) 0,
       l.getD (k + 4) 0, l.getD (k + 5) 0, l.getD (k + 6) 0, l.getD (k + 7) 0] := by
  rw [drop_eq_getD_cons l k (by omega), drop_eq_getD_cons l (k + 1) (by omega),
      drop_eq_getD_cons l (k + 2) (by omega), drop_eq_getD_cons l (k + 3) (by omega),
      drop_eq_getD_cons l (k + 4) (by omega), drop_eq_getD_cons l (k + 5) (by omega),
      drop_eq_getD_cons l (k + 6) (by omega), drop_eq_getD_cons l (k + 7) (by omega)]
  rfl

theorem leNat_slice1 (l : List Nat) (k : Nat) (h : k + 1 ≤ l.length) :
    leNat ((l.drop k).take 1) = l.getD k 0 := by
  rw [take1_eq l k h]; simp [leNat]

theorem leNat_slice4 (l : List Nat) (k : Nat) (h : k + 4 ≤ l.length) :
    leNat ((l.drop k).take 4) =
      l.getD k 0 + 256 * l.getD (k + 1) 0 + 65536 * l.getD (k + 2) 0 +
        16777216 * l.getD (k + 3) 0 := by
  rw [take4_eq l k h]; simp [leNat]; ring

theorem leNat_slice8 (l : List Nat) (k : Nat) (h : k + 8 ≤ l.length) :
    leNat ((l.drop k).take 8) =
      l.getD k 0 + 256 * l.getD (k + 1) 0 + 65536 * l.getD (k + 2) 0 +
        16777216 * l.getD (k + 3) 0 + 4294967296 * l.getD (k + 4) 0 +
        1099511627776 * l.getD (k + 5) 0 + 281474976710656 * l.getD (k + 6) 0 +
        72057594037927936 * l.getD (k + 7) 0 := by
  rw [take8_eq l k h]; simp [leNat]; ring

theorem parseRecordEntries_get? (data : List Nat) :
    ∀ (fields : List UdfField) (off i : Nat) (h : i < fields.length),
      (parseRecordEntries data fields off).get? i =
        some (fieldEntry data (off + prefixSize fields i) (fields.get ⟨i, h⟩)) := by
  intro fields
  induction fields with
  | nil => intro off i h; simp at h
  | cons f rest ih =>
    intro off i h
    cases i with
    | zero =>
      simp [parseRecordEntries, prefixSize]
    | succ i' =>
      have h' : i' < rest.length := by simpa using h
      have := ih (off + f.size) i' h'
      simp only [parseRecordEntries, List.get?_cons_succ, this, List.get_cons_succ]
      have harith : off + f.size + prefixSize rest i' = off + prefixSize (f :: rest) (i' + 1) := by
        simp [prefixSize, List.take_succ_cons]
        omega
      rw [harith]

theorem fieldEntry_truncated (data : List Nat) (off : Nat) (f : UdfField)
    (h : data.length - off < f.size) : fieldEntry data off f = (fieldKey f, none) := by
  unfold fieldEntry
  rw [if_pos]
  simp only [List.length_take, List.length_drop]
  omega

theorem hexChars_length (l : List Nat) :
    (l.foldr (fun b acc => hexOfByte b ++ acc) ([] : List Char)).length = 2 * l.length := by
  induction l with
  | nil => rfl
  | cons b t ih =>
    rw [List.foldr_cons, List.length_append, ih]
    simp only [hexOfByte, List.length_cons, List.length_nil, List.length_singleton]
    omega

theorem hexOfBytes_length (bs : List Nat) : (hexOfBytes bs).length = 2 * bs.length :=
  hexChars_length bs

theorem hexDigitChar_mem (n : Nat) : hexDigitChar n ∈ ("0123456789abcdef").data := by
  unfold hexDigitChar
  split <;> decide

theorem hexOfBytes_lowercase (bs : List Nat) :
    ∀ c ∈ (hexOfBytes bs).data, c ∈ ("0123456789abcdef").data := by
  induction bs with
  | nil => intro c hc; simp [hexOfBytes] at hc
  | cons b t ih =>
    intro c hc
    simp only [hexOfBytes, List.foldr_cons] at hc
    rcases List.mem_append.mp hc with h1 | h1
    · simp only [hexOfByte, List.mem_cons, List.mem_singleton] at h1
      rcases h1 with rfl | h2
      · exact hexDigitChar_mem _
      · rcases h2 with rfl | h3
        · exact hexDigitChar_mem _
        · simp at h3
    · exact ih c h1

theorem extract_window_length (binary : List Nat) (headerSize recordSize i : Nat)
    (hh : headerSize ≤ binary.length) (hrs : 0 < recordSize)
    (hi : i < (binary.length - headerSize) / recordSize) :
    ((binary.drop (headerSize + i * recordSize)).take recordSize).length = recordSize := by
  simp only [List.length_take, List.length_drop]
  have h1 : (i + 1) * recordSize ≤ ((binary.length - headerSize) / recordSize) * recordSize :=
    Nat.mul_le_mul_right recordSize (Nat.succ_le_of_lt hi)
  have h2 : ((binary.length - headerSize) / recordSize) * recordSize ≤ binary.length - headerSize :=
    Nat.div_mul_le_self _ _
  have h3 : (i + 1) * recordSize = i * recordSize + recordSize := by ring
  omega

theorem extractRecordsGiven_length (binary : List Nat) (headerSize recordSize : Nat)
    (hh : headerSize ≤ binary.length) (hrs : 61 ≤ recordSize) :
    (extractRecordsGiven binary headerSize recordSize).length =
      (binary.length - headerSize) / recordSize := by
  unfold extractRecordsGiven
  rw [length_filterMap_of_isSome]
  · exact List.length_range _
  · intro i hi
    have hi' : i < (binary.length - headerSize) / recordSize := List.mem_range.mp hi
    have hw := extract_window_length binary headerSize recordSize i hh (by omega) hi'
    simp only [parseRecord61, hw]
    rw [if_neg (by omega)]
    simp

/-- C1 (counterexample).  The scan of `payTie` yields marker positions
0, 10, 20, 40, 60, whose consecutive inter-marker deltas are
`[10, 10, 20, 20]`: the claimed statistical mode with smallest-value
tie-break is 10, but the detected `record_size` is 20 (the canonical-schema
detector drops the first delta before taking the mode, leaving `[10, 20, 20]`
whose unique mode is 20 under any set-enumeration order). -/
theorem c1_counterexample :
    scanPositions payTie = [0, 10, 20, 40, 60] ∧
    deltasOf [0, 10, 20, 40, 60] = [10, 10, 20, 20] ∧
    detectRecordSize payTie = (10, 20) ∧ ¬((20 : Nat) = 10) := by
  refine ⟨by decide, by decide, by decide, by decide⟩

/-- C1 (amended).  Detected record sizes are elements of maximal frequency,
not always the overall smallest-tie-break mode: in the descriptor parser the
subsequent record size attains the maximal count among ALL consecutive
inter-marker deltas (hence is the mode whenever the mode is unique; Python
leaves the tie order to set iteration, which need not pick the smallest); in
the canonical-schema converter the first delta is excluded before the count,
so its record size maximises frequency only among the remaining deltas.  For
deltas `[61, 61, 28, 61]` both detectors yield 61. -/
theorem c1_record_size_mode_amended :
    (∀ (binary : List Nat) (p0 p1 : Nat) (rest : List Nat), ¬ binary.length < 100 →
       scanPositions binary = p0 :: p1 :: rest →
       (calculateRecordSize binary).2 ∈ deltasOf (p0 :: p1 :: rest) ∧
       ∀ d ∈ deltasOf (p0 :: p1 :: rest),
         (deltasOf (p0 :: p1 :: rest)).count d ≤
           (deltasOf (p0 :: p1 :: rest)).count (calculateRecordSize binary).2) ∧
    (∀ (binary : List Nat) (p0 p1 p2 : Nat) (rest : List Nat),
       scanPositions binary = p0 :: p1 :: p2 :: rest →
       (detectRecordSize binary).2 ∈ deltasOf (p1 :: p2 :: rest) ∧
       ∀ d ∈ deltasOf (p1 :: p2 :: rest),
         (deltasOf (p1 :: p2 :: rest)).count d ≤
           (deltasOf (p1 :: p2 :: rest)).count (detectRecordSize binary).2) ∧
    (calculateRecordSize payDeltas61 = (61, 61) ∧ detectRecordSize payDeltas61 = (61, 61)) := by
  refine ⟨?_, ?_, by decide, by decide⟩
  · intro binary p0 p1 rest hlen hp
    have hcalc : (calculateRecordSize binary).2 = mostCommon (deltasOf (p0 :: p1 :: rest)) := by
      simp only [calculateRecordSize, if_neg hlen, hp, deltasOf]
    rw [hcalc]
    have hne : deltasOf (p0 :: p1 :: rest) ≠ [] := by simp [deltasOf]
    exact mostCommon_spec _ hne
  · intro binary p0 p1 p2 rest hp
    have hdet : (detectRecordSize binary).2 = mostCommon (deltasOf (p1 :: p2 :: rest)) := by
      simp only [detectRecordSize, hp, deltasOf]
    rw [hdet]
    have hne : deltasOf (p1 :: p2 :: rest) ≠ [] := by simp [deltasOf]
    exact mostCommon_spec _ hne

/-- C1 (witness).  The amended theorem applied to the concrete payload with
deltas `[61, 61, 28, 61]`: the detected subsequent record size of the
descriptor parser is one of those deltas. -/
theorem c1_witness :
    (calculateRecordSize payDeltas61).2 ∈ deltasOf (0 :: 61 :: [122, 150, 211]) :=
  (c1_record_size_mode_amended.1 payDeltas61 0 61 [122, 150, 211]
    (by decide) (by decide)).1

/-- C2.  After a successful `parse()` (any loaded payload), every call to
`BMEUDFParser.extract_records` raises: `_calculate_record_size` returns the
pair `(first_record_size, subsequent_record_size)`, the guard
`record_size == 0` is a tuple-vs-int comparison that is `False`, and the loop
condition `offset + record_size <= len(...)` adds an `int` to a `tuple`,
raising `TypeError` — so no record is ever produced by this method. -/
theorem c2_extract_records_raises (binary : List Nat) :
    parserExtractRecords binary = .error .typeError := rfl

/-- C5 (counterexample).  On `payLateFirstMarker` the markers sit at
30, 60, 75, 90: the steady-state record size is 15 and the first marker
offset 30 is NOT smaller than it, so the claim says `header_size` should
equal `record_size` (15); the canonical-schema detector instead returns the
first inter-marker delta 30 unconditionally. -/
theorem c5_counterexample :
    scanPositions payLateFirstMarker = [30, 60, 75, 90] ∧
    detectRecordSize payLateFirstMarker = (30, 15) ∧ ¬((30 : Nat) = 15) := by
  refine ⟨by decide, by decide, by decide⟩

/-- C5 (amended).  In the canonical-schema converter, `header_size` is
ALWAYS the delta between the first two marker positions, with no comparison
against the record size; the conditional form lives only in the descriptor
parser, whose first-record size is `positions[0] + record_size` (not the
first inter-marker delta) when `positions[0] < record_size`, and
`record_size` otherwise. -/
theorem c5_header_size_amended :
    (∀ (binary : List Nat) (p0 p1 p2 : Nat) (rest : List Nat),
       scanPositions binary = p0 :: p1 :: p2 :: rest →
       (detectRecordSize binary).1 = p1 - p0) ∧
    (∀ (binary : List Nat) (p0 p1 : Nat) (rest : List Nat), ¬ binary.length < 100 →
       scanPositions binary = p0 :: p1 :: rest →
       calculateRecordSize binary =
         (if p0 < mostCommon (deltasOf (p0 :: p1 :: rest)) then
            p0 + mostCommon (deltasOf (p0 :: p1 :: rest))
          else mostCommon (deltasOf (p0 :: p1 :: rest)),
          mostCommon (deltasOf (p0 :: p1 :: rest)))) := by
  constructor
  · intro binary p0 p1 p2 rest hp
    simp only [detectRecordSize, hp, deltasOf]
  · intro binary p0 p1 rest hlen hp
    simp only [calculateRecordSize, if_neg hlen, hp, deltasOf]

/-- C5 (witness).  The amended theorem applied to `payLateFirstMarker`:
its canonical-path header size is the first inter-marker delta `60 - 30`. -/
theorem c5_witness : (detectRecordSize payLateFirstMarker).1 = 60 - 30 :=
  c5_header_size_amended.1 payLateFirstMarker 30 60 75 [90] (by decide)

/-- C7 (counterexample).  A 99-byte payload with no marker at all: fewer
than two marker occurrences, yet the descriptor parser's detection neither
raises nor falls back to the claimed `(28, 61)` default — payloads shorter
than 100 bytes take the earlier `(61, 61)` guess. -/
theorem c7_counterexample :
    (scanPositions payShortNoMarker).length = 0 ∧
    calculateRecordSize payShortNoMarker = (61, 61) ∧
    ¬(calculateRecordSize payShortNoMarker = (28, 61)) := by
  refine ⟨by decide, by decide, by decide⟩

/-- C7 (amended).  With fewer than two marker occurrences in the scan
window, only the strict CSV converter raises (`ValueError`, the spec's
`FramingError`); the best-effort detectors return defaults WITHOUT raising:
`(28, 61)` in the canonical-schema converter always and in the descriptor
parser for payloads of at least 100 bytes, but `(61, 61)` in the descriptor
parser for payloads shorter than 100 bytes. -/
theorem c7_framing_fallback_amended :
    (∀ binary : List Nat, (scanPositionsAll binary).length < 2 →
       converterDetectFraming binary = .error .valueError) ∧
    (∀ binary : List Nat, 100 ≤ binary.length → (scanPositions binary).length < 2 →
       calculateRecordSize binary = (28, 61)) ∧
    (∀ binary : List Nat, (scanPositions binary).length < 2 →
       detectRecordSize binary = (28, 61)) ∧
    (∀ binary : List Nat, binary.length < 100 → calculateRecordSize binary = (61, 61)) := by
  refine ⟨?_, ?_, ?_, ?_⟩
  · intro binary h
    simp only [converterDetectFraming, if_pos h]
  · intro binary hlen h
    rcases hp : scanPositions binary with _ | ⟨p0, t⟩
    · simp only [calculateRecordSize, if_neg (by omega : ¬ binary.length < 100), hp]
    · rcases t with _ | ⟨p1, t2⟩
      · simp only [calculateRecordSize, if_neg (by omega : ¬ binary.length < 100), hp]
      · rw [hp] at h; simp at h; omega
  · intro binary h
    rcases hp : scanPositions binary with _ | ⟨p0, t⟩
    · simp only [detectRecordSize, hp]
    · rcases t with _ | ⟨p1, t2⟩
      · simp only [detectRecordSize, hp]
      · rw [hp] at h; simp at h; omega
  · intro binary h
    simp only [calculateRecordSize, if_pos h]

/-- C7 (witness).  The amended theorem at concrete inputs: a 120-byte
marker-free payload (converter raises, parser and converter detectors fall
back to `(28, 61)`) and a 99-byte marker-free payload (parser guess
`(61, 61)`). -/
theorem c7_witness :
    converterDetectFraming payLongNoMarker = .error .valueError ∧
    calculateRecordSize payLongNoMarker = (28, 61) ∧
    detectRecordSize payLongNoMarker = (28, 61) ∧
    calculateRecordSize payShortNoMarker = (61, 61) :=
  ⟨c7_framing_fallback_amended.1 payLongNoMarker (by decide),
   c7_framing_fallback_amended.2.1 payLongNoMarker (by decide) (by decide),
   c7_framing_fallback_amended.2.2.1 payLongNoMarker (by decide),
   c7_framing_fallback_amended.2.2.2 payShortNoMarker (by decide)⟩

/-- C10.  In the canonical-schema path a scan that finds exactly two marker
positions falls back to `(28, 61)`: the first inter-marker delta is used
only as a header-size candidate and is excluded from the mode computation
(`range(1, len(positions)-1)`), so with two positions the interval list is
empty and the computed header size is discarded; an inferred record size
therefore needs at least three marker occurrences, in which case the result
is `(positions[1] - positions[0], mode of the remaining deltas)`. -/
theorem c10_two_marker_fallback :
    (∀ binary : List Nat, (scanPositions binary).length = 2 →
       detectRecordSize binary = (28, 61)) ∧
    (∀ (binary : List Nat) (p0 p1 p2 : Nat) (rest : List Nat),
       scanPositions binary = p0 :: p1 :: p2 :: rest →
       detectRecordSize binary = (p1 - p0, mostCommon (deltasOf (p1 :: p2 :: rest)))) := by
  constructor
  · intro binary hlen
    rcases hp : scanPositions binary with _ | ⟨p0, t⟩
    · rw [hp] at hlen; simp at hlen
    · rcases t with _ | ⟨p1, t2⟩
      · rw [hp] at hlen; simp at hlen
      · rcases t2 with _ | ⟨p2, t3⟩
        · simp only [detectRecordSize, hp, deltasOf]
        · rw [hp] at hlen; simp at hlen
  · intro binary p0 p1 p2 rest hp
    simp only [detectRecordSize, hp, deltasOf]

/-- C10 (witness).  The fallback at a concrete payload whose scan finds
exactly the two marker positions 0 and 10. -/
theorem c10_witness :
    (scanPositions payTwoMarkers).length = 2 ∧ detectRecordSize payTwoMarkers = (28, 61) :=
  ⟨by decide, c10_two_marker_fallback.1 payTwoMarkers (by decide)⟩

/-- C4.  Fixed-offset mode: every 61-byte record window decodes to the 13
canonical values at the documented little-endian offsets — Sensor Index from
byte 60, Sensor ID from bytes 45-48, Time Since PowerOn from bytes 2-9
(nanoseconds, integer-divided by 1,000,000), Real Time Clock constant 0,
Temperature from bytes 33-36, Pressure from bytes 27-30, Relative Humidity
from bytes 21-24, Gas Resistance from bytes 15-18, Heater Profile Step Index
from byte 12, Scanning Mode Enabled constant 1, Scanning Cycle Index from
byte 39, Label Tag from bytes 51-54, Error Code from byte 53 as a signed
byte.  Float fields are the 32-bit little-endian patterns of those bytes. -/
theorem c4_fixed_offsets (data : List Nat) (h : data.length = 61) :
    parseRecord61 data = some
      [.vint (data.getD 60 0),
       .vint ((data.getD 45 0 + 256 * data.getD 46 0 + 65536 * data.getD 47 0 +
         16777216 * data.getD 48 0 : Nat)),
       .vint (((data.getD 2 0 + 256 * data.getD 3 0 + 65536 * data.getD 4 0 +
         16777216 * data.getD 5 0 + 4294967296 * data.getD 6 0 +
         1099511627776 * data.getD 7 0 + 281474976710656 * data.getD 8 0 +
         72057594037927936 * data.getD 9 0 : Nat) / 1000000)),
       .vint 0,
       .vfloat32 (data.getD 33 0 + 256 * data.getD 34 0 + 65536 * data.getD 35 0 +
         16777216 * data.getD 36 0),
       .vfloat32 (data.getD 27 0 + 256 * data.getD 28 0 + 65536 * data.getD 29 0 +
         16777216 * data.getD 30 0),
       .vfloat32 (data.getD 21 0 + 256 * data.getD 22 0 + 65536 * data.getD 23 0 +
         16777216 * data.getD 24 0),
       .vfloat32 (data.getD 15 0 + 256 * data.getD 16 0 + 65536 * data.getD 17 0 +
         16777216 * data.getD 18 0),
       .vint (data.getD 12 0),
       .vint 1,
       .vint (data.getD 39 0),
       .vint ((data.getD 51 0 + 256 * data.getD 52 0 + 65536 * data.getD 53 0 +
         16777216 * data.getD 54 0 : Nat)),
       .vint (toSigned (data.getD 53 0) 256)] := by
  simp only [parseRecord61]
  rw [if_neg (by omega)]
  rw [leNat_slice4 data 45 (by omega), leNat_slice8 data 2 (by omega),
      leNat_slice4 data 33 (by omega), leNat_slice4 data 27 (by omega),
      leNat_slice4 data 21 (by omega), leNat_slice4 data 15 (by omega),
      leNat_slice4 data 51 (by omega), leNat_slice1 data 53 (by omega)]

/-- C4 (witness).  The scenario window — byte 60 equal to 2, bytes 45-48
holding little-endian 7, all other bytes zero — decodes to Sensor Index 2
and Sensor ID 7 (and the remaining eleven canonical values). -/
theorem c4_witness :
    parseRecord61 winScenario = some
      [.vint 2, .vint 7, .vint 0, .vint 0, .vfloat32 0, .vfloat32 0, .vfloat32 0,
       .vfloat32 0, .vint 0, .vint 1, .vint 0, .vint 0, .vint 0] := by
  have h := c4_fixed_offsets winScenario (by decide)
  rw [h]
  rfl

/-- C8.  A field whose type specification is a single unrecognized token is
never numerically decoded and never raises: the decoder returns the field's
raw bytes as a hex string, of length twice the declared size, drawn from the
lowercase hex alphabet. -/
theorem c8_unknown_type_hex (data : List Nat) (t : String) (size : Nat) (tok : List Char)
    (hsplit : (splitOnChar ',' t.data).map pyStripList = [tok])
    (hunk : typeMapL tok = none)
    (hlen : data.length = size) :
    parseFieldValue data t size = .ok (.vhex (hexOfBytes data)) ∧
    (hexOfBytes data).length = 2 * size ∧
    ∀ c ∈ (hexOfBytes data).data, c ∈ ("0123456789abcdef").data := by
  refine ⟨?_, ?_, hexOfBytes_lowercase data⟩
  · simp only [parseFieldValue, hsplit, hunk]
  · rw [hexOfBytes_length, hlen]

/-- C8 (witness).  `type_spec = "unknowntype"` on the two-byte buffer
`[0, 255]` yields the four-character lowercase hex string `"00ff"`. -/
theorem c8_witness :
    parseFieldValue [0, 255] "unknowntype" 2 = .ok (.vhex (hexOfBytes [0, 255])) ∧
    (hexOfBytes [0, 255]).length = 2 * 2 ∧ hexOfBytes [0, 255] = "00ff" := by
  have h := c8_unknown_type_hex [0, 255] "unknowntype" 2 ("unknowntype".data)
    (by decide) (by decide) (by decide)
  exact ⟨h.1, h.2.1, by decide⟩

/-- C9.  Descriptor-driven record decoding keeps cursor discipline: the entry
for field `i` is always computed at the offset given by the sum of the
declared sizes of the preceding fields, and when the declared size exceeds
the bytes remaining past that cursor the stored value is `none` while the
cursor still advances by the declared size (so later fields keep their
declared offsets). -/
theorem c9_truncated_field (data : List Nat) (fields : List UdfField) (i : Nat)
    (h : i < fields.length) :
    (parseRecordEntries data fields 0).get? i =
      some (fieldEntry data (prefixSize fields i) (fields.get ⟨i, h⟩)) ∧
    (data.length - prefixSize fields i < (fields.get ⟨i, h⟩).size →
      (parseRecordEntries data fields 0).get? i =
        some (fieldKey (fields.get ⟨i, h⟩), none)) := by
  have h0 := parseRecordEntries_get? data fields 0 i h
  rw [Nat.zero_add] at h0
  refine ⟨h0, fun htr => ?_⟩
  rw [h0, fieldEntry_truncated data _ _ htr]

/-- C9 (witness).  A 4-byte `u32` followed by a 2-byte `u16` on the 5-byte
buffer `[1, 0, 0, 0, 5]`: the second field's declared offset 4 leaves a
single byte, so its entry is `("1_B", none)` while the first decodes. -/
theorem c9_witness :
    (parseRecordEntries shortData [fieldU32, fieldU16] 0).get? 1 = some ("1_B", none) := by
  have h := (c9_truncated_field shortData [fieldU32, fieldU16] 1 (by decide)).2 (by decide)
  exact h.trans (by rfl)

/-- C3 (counterexample).  The canonical-schema path on `paySmallRecords`:
the detected framing is `(10, 10)` and the decodable length past the header
is `25 = 2 × 10 + 5`, so the claim promises exactly 2 decoded records; but
every 10-byte window is shorter than 61 bytes and is skipped, so extraction
yields 0 records. -/
theorem c3_counterexample :
    detectRecordSize paySmallRecords = (10, 10) ∧
    paySmallRecords.length - 10 = 2 * 10 + 5 ∧
    udfExtractRecords paySmallRecords = [] ∧
    ¬((0 : Nat) = 2) := by
  refine ⟨by decide, by decide, rfl, by decide⟩

/-- C3 (amended).  The truncated-tail property holds in the canonical-schema
path whenever the detected record size is at least 61 (in particular for the
canonical 61-byte framing): a decodable length of `k × record_size + r` with
`0 < r < record_size` yields exactly `k` decoded records and no error, the
short tail being silently ignored.  When the detected record size is smaller
than 61, every window is skipped and 0 records result; the descriptor-path
`extract_records` never reaches its loop at all (it raises, see C2). -/
theorem c3_truncated_tail_amended (binary : List Nat) (k r : Nat)
    (hrs : 61 ≤ (detectRecordSize binary).2)
    (hh : (detectRecordSize binary).1 ≤ binary.length)
    (hdecomp : binary.length - (detectRecordSize binary).1 =
      k * (detectRecordSize binary).2 + r)
    (hr0 : 0 < r) (hrlt : r < (detectRecordSize binary).2) :
    (udfExtractRecords binary).length = k := by
  unfold udfExtractRecords
  rw [extractRecordsGiven_length binary _ _ hh hrs, hdecomp,
      Nat.add_comm (k * (detectRecordSize binary).2) r,
      Nat.add_mul_div_right r k (by omega : 0 < (detectRecordSize binary).2),
      Nat.div_eq_of_lt hrlt]
  omega

/-- C3 (witness).  The amended theorem on `payOneRecord`: framing `(61, 61)`
over a 152-byte payload, decodable length `91 = 1 × 61 + 30`, exactly one
decoded record. -/
theorem c3_witness : (udfExtractRecords payOneRecord).length = 1 :=
  c3_truncated_tail_amended payOneRecord 1 30 (by decide) (by decide) (by decide)
    (by decide) (by decide)

/-- C6 (counterexample).  The spec's scenario metadata — a version line plus
the four-token lines `"0: Sensor Index: 1: u8"` and `"1: Temperature: 4: f"`
— produces ZERO field descriptors in both metadata parsers, not two: the
descriptor parser's regex requires all eight tokens, and the canonical
converter's regex requires a colon after the fourth token. -/
theorem c6_counterexample :
    (parserParseMetadata scenarioMetadata).2 = [] ∧
    (rawdataParseMetadata scenarioMetadata).2 = [] ∧
    ¬((rawdataParseMetadata scenarioMetadata).2.length = 2) := by
  refine ⟨by decide, by decide, by decide⟩

/-- C6 (amended).  Only richer lines produce descriptors: an eight-token
line is accepted by both parsers (the canonical one keeping its first four
fields), while a pure four-token line is rejected by both; unmatched lines
are silently skipped and never abort the header parse - dropping any
non-matching line from the input leaves the produced descriptor sequence
unchanged. -/
theorem c6_metadata_amended :
    matchFieldLine8 lineEight =
      some ⟨2, "Temperature", 4, "f", "0", "0", "0", "OK"⟩ ∧
    matchFieldLine4 lineEight = some ⟨2, "Temperature", 4, "f"⟩ ∧
    matchFieldLine8 lineFour = none ∧
    matchFieldLine4 lineFour = none ∧
    (∀ (l1 l2 : List (List Char)) (bad : List Char),
       pyStripList bad = [] ∨ matchFieldLine8 (pyStripList bad) = none →
       parserFieldLines (l1 ++ bad :: l2) = parserFieldLines (l1 ++ l2)) ∧
    (∀ (l1 l2 : List (List Char)) (bad : List Char),
       matchFieldLine4 bad = none →
       rawFieldsFrom (l1 ++ bad :: l2) = rawFieldsFrom (l1 ++ l2)) := by
  refine ⟨by decide, by decide, by decide, by decide, ?_, ?_⟩
  · intro l1 l2 bad hbad
    have hg : (if (pyStripList bad).isEmpty then none
        else matchFieldLine8 (pyStripList bad)) = (none : Option UdfField) := by
      rcases hbad with h | h
      · simp [h]
      · by_cases he : (pyStripList bad).isEmpty <;> simp [he, h]
    simp only [parserFieldLines, List.filterMap_append, List.filterMap_cons, hg]
  · intro l1 l2 bad hbad
    simp only [rawFieldsFrom, List.filterMap_append, List.filterMap_cons, hbad]

/-- C6 (witness).  The skip-tolerance of the amended theorem at concrete
lines: inserting the rejected four-token line after an accepted eight-token
line leaves both parsers' descriptor sequences unchanged. -/
theorem c6_witness :
    parserFieldLines [lineEight, lineFour] = parserFieldLines [lineEight] ∧
    rawFieldsFrom [lineEight, lineFour] = rawFieldsFrom [lineEight] :=
  ⟨c6_metadata_amended.2.2.2.2.1 [lineEight] [] lineFour (Or.inr (by decide)),
   c6_metadata_amended.2.2.2.2.2 [lineEight] [] lineFour (by decide)⟩
